import Mathlib

/-
Shallow embedding of `app/src/webrtc_server.c` (the WebRTC signaling server of
scrcpy) together with the parts of `app/src/webrtc_server.h` it needs.

Bytes are modelled as `Nat` (values produced by the code are below 256 by
construction; attacker-supplied buffer bytes carry a `< 256` hypothesis where it
matters).  The one place where machine arithmetic can wrap — the
`size_t`/`uint64_t` comparison `len < header_len + payload_length` in
`parse_websocket_frame` — is taken modulo `2 ^ 64` explicitly.
-/

/-- `SC_WEBRTC_MAX_CLIENTS` from `webrtc_server.h`. -/
def SC_WEBRTC_MAX_CLIENTS : Nat := 10

/-! ## Frame codec: `parse_websocket_frame` / `create_websocket_frame` -/

/-- The extended-length decoding step of `parse_websocket_frame`
(webrtc_server.c, lines 147–162): the 7-bit base length field
`data[1] & 0x7F`, the 16-bit big-endian form (marker 126) and the 64-bit
big-endian form (marker 127).  Returns the declared payload length together
with the header length before the mask adjustment; `none` models the
`return false` ("insufficient data") exits of the corresponding `len` checks. -/
def ws_len_fields (data : List Nat) : Option (Nat × Nat) :=
  let payload_length := data.getD 1 0 % 128
  if payload_length = 126 then
    if data.length < 4 then none
    else some (data.getD 2 0 <<< 8 ||| data.getD 3 0, 4)
  else if payload_length = 127 then
    if data.length < 10 then none
    else some ((List.range 8).foldl (fun acc i => acc <<< 8 ||| data.getD (2 + i) 0) 0, 10)
  else some (payload_length, 2)

/-- `parse_websocket_frame` (webrtc_server.c, lines 141–184).  `none` models the
`return false` "insufficient data" exits.  The `malloc`+`memcpy` and the
in-place mask XOR loop (`(*payload)[i] ^= mask[i % 4]` with
`mask = data + header_len - 4`) are fused into the returned payload list.
The comparison `len < header_len + payload_length` is performed on
`size_t`/`uint64_t` operands in the C, so the sum is reduced `% 2 ^ 64`. -/
def parse_websocket_frame (data : List Nat) : Option (List Nat) :=
  if data.length < 2 then none
  else
    match ws_len_fields data with
    | none => none
    | some (payload_length, base_len) =>
      let masked := (data.getD 1 0).testBit 7
      let header_len := if masked then base_len + 4 else base_len
      if data.length < (header_len + payload_length) % 2 ^ 64 then none
      else if masked then
        some ((List.range payload_length).map
          (fun i => data.getD (header_len + i) 0 ^^^ data.getD (header_len - 4 + i % 4) 0))
      else
        some ((List.range payload_length).map (fun i => data.getD (header_len + i) 0))

/-- `create_websocket_frame` (webrtc_server.c, lines 187–218): first byte
`0x81` (FIN + text opcode), then the tiered length encoding
(`payload_len & 0x7F`, or marker 126 plus `(payload_len >> 8) & 0xFF` and
`payload_len & 0xFF`, or marker 127 plus eight bytes
`(payload_len >> (8 * (7 - i))) & 0xFF`), then the payload verbatim. -/
def create_websocket_frame (payload : List Nat) : List Nat :=
  let payload_len := payload.length
  if payload_len > 65535 then
    0x81 :: 127 :: ((List.range 8).map (fun i => payload_len >>> (8 * (7 - i)) % 256) ++ payload)
  else if payload_len > 125 then
    0x81 :: 126 :: payload_len >>> 8 % 256 :: payload_len % 256 :: payload
  else
    0x81 :: payload_len % 128 :: payload

/-- The length-field encoding exactly as §4.1 of the spec words it
("≤125 bytes → 1-byte length; 126–65535 → marker 126 + 2-byte big-endian
length; >65535 → marker 127 + 8-byte big-endian length").  This is the
refinement counterpart written from the spec, not translated from the C. -/
def ws_spec_len_header (n : Nat) : List Nat :=
  if n ≤ 125 then [n]
  else if n ≤ 65535 then [126, n / 256, n % 256]
  else 127 :: (List.range 8).map (fun i => n / 256 ^ (7 - i) % 256)

/-- Header length per length tier, as the spec words it. -/
def ws_spec_header_len (n : Nat) : Nat :=
  if n ≤ 125 then 2 else if n ≤ 65535 then 4 else 10

/-! ## Client registry and server (webrtc_server.c, lines 266–481) -/

/-- `struct sc_webrtc_client` (webrtc_server.h).  The opaque `void *`
peer-connection / data-channel handles are modelled as `Option Nat`
(`none` = `NULL`); `sc_socket` is modelled as `Nat`.  The `server` back
pointer is omitted (it always points at the unique enclosing server). -/
structure WsClient where
  id : Int
  socket : Nat
  connected : Bool
  peerConnection : Option Nat
  dataChannel : Option Nat
deriving DecidableEq, Inhabited, Repr

/-- Observable effects of the server code on its collaborators: bytes sent on a
socket (`net_send_all`), the 200-OK page response (its body is not examined by
any claim), a socket close (`net_close`), `rtcDeletePeerConnection`, and the two
callback invocations. -/
inductive WsEvent where
  | sent101 (sock : Nat) (response : String)
  | sentHtml (sock : Nat)
  | closed (sock : Nat)
  | deletedPeer (pc : Nat)
  | connectedCb (id : Nat)
  | disconnectedCb (id : Nat)
deriving DecidableEq, Repr

/-- `struct sc_webrtc_server` (webrtc_server.h): the fields the claims touch.
`server_socket` is `Option Nat` (`none` = `SC_SOCKET_NONE`); the callback
function pointers are modelled by booleans telling whether they are set
(the C tests them for `NULL` before invoking); `lockDepth` tracks `sc_mutex`
acquisition, see `sc_mutex_lock`. -/
structure WsServer where
  server_socket : Option Nat
  port : Nat
  stopped : Bool
  lockDepth : Nat
  clients : List WsClient
  client_count : Nat
  has_on_client_connected : Bool
  has_on_client_disconnected : Bool
deriving DecidableEq, Repr

/-- Modelled from the spec: `sc_mutex` (`util/thread.h`) is not part of the
given sources.  §5 of the spec specifies a single registry lock that linearizes
registry mutations; within the one thread modelled here, acquisition by the
thread that already holds the lock is modelled as succeeding, tracked by a
depth counter. -/
def sc_mutex_lock (s : WsServer) : WsServer :=
  { s with lockDepth := s.lockDepth + 1 }

/-- Counterpart of `sc_mutex_lock`: release decrements the depth counter. -/
def sc_mutex_unlock (s : WsServer) : WsServer :=
  { s with lockDepth := s.lockDepth - 1 }

/-- `sc_webrtc_server_add_client` (webrtc_server.c, lines 322–345): under the
lock, fail with `-1` if `client_count >= SC_WEBRTC_MAX_CLIENTS`, else write the
slot `clients[client_count]` (id, socket, `connected = true`, NULL handles) and
increment the count, returning the id. -/
def sc_webrtc_server_add_client (server : WsServer) (client_socket : Nat) :
    Int × WsServer :=
  let s := sc_mutex_lock server
  if s.client_count ≥ SC_WEBRTC_MAX_CLIENTS then
    (-1, sc_mutex_unlock s)
  else
    let client_id := s.client_count
    let client : WsClient :=
      { id := Int.ofNat client_id, socket := client_socket, connected := true,
        peerConnection := none, dataChannel := none }
    let s2 := { s with clients := s.clients.set client_id client,
                       client_count := client_id + 1 }
    (Int.ofNat client_id, sc_mutex_unlock s2)

/-- `sc_webrtc_server_remove_client` (webrtc_server.c, lines 347–373): under the
lock, if the id is in range and the client is connected, clear the flag, close
its socket, delete and null its peer connection, and invoke the disconnect
callback if one is registered; otherwise do nothing. -/
def sc_webrtc_server_remove_client (server : WsServer) (client_id : Int) :
    WsServer × List WsEvent :=
  let s := sc_mutex_lock server
  if 0 ≤ client_id ∧ client_id < (s.client_count : Int) then
    let idx := client_id.toNat
    let c := s.clients.getD idx default
    if c.connected then
      let c2 := { c with connected := false, peerConnection := none }
      (sc_mutex_unlock { s with clients := s.clients.set idx c2 },
        WsEvent.closed c.socket ::
          ((match c.peerConnection with
            | some pc => [WsEvent.deletedPeer pc]
            | none => []) ++
           (if s.has_on_client_disconnected then [WsEvent.disconnectedCb idx] else [])))
    else (sc_mutex_unlock s, [])
  else (sc_mutex_unlock s, [])

/-- `sc_webrtc_server_get_client` (webrtc_server.c, lines 375–381). -/
def sc_webrtc_server_get_client (server : WsServer) (client_id : Int) :
    Option WsClient :=
  if 0 ≤ client_id ∧ client_id < (server.client_count : Int) then
    some (server.clients.getD client_id.toNat default)
  else none

/-- Body of the client-closing loop of `sc_webrtc_server_stop`
(webrtc_server.c, lines 469–473): one iteration at index `i`. -/
def ws_stop_step (acc : WsServer × List WsEvent) (i : Nat) : WsServer × List WsEvent :=
  if (acc.1.clients.getD i default).connected then
    let rc := sc_webrtc_server_remove_client acc.1 (i : Int)
    (rc.1, acc.2 ++ rc.2)
  else acc

/-- `sc_webrtc_server_stop` (webrtc_server.c, lines 463–481): set the stop flag,
disconnect every connected client under the lock, then close the listening
socket (if any) to unblock `accept`. -/
def sc_webrtc_server_stop (server : WsServer) : WsServer × List WsEvent :=
  let s0 := { server with stopped := true }
  let s1 := sc_mutex_lock s0
  let r := (List.range s1.client_count).foldl ws_stop_step (s1, [])
  let s2 := sc_mutex_unlock r.1
  match s2.server_socket with
  | some sock => ({ s2 with server_socket := none }, r.2 ++ [WsEvent.closed sock])
  | none => (s2, r.2)

/-- The literal `websocket_response` handshake string of
`sc_webrtc_server_handle_websocket` (webrtc_server.c, lines 294–299): note the
hardcoded `Sec-WebSocket-Accept` value. -/
def websocket_response : String :=
  "HTTP/1.1 101 Switching Protocols\r\nUpgrade: websocket\r\nConnection: Upgrade\r\nSec-WebSocket-Accept: s3pPLMBiTxaQ9kYGzzhZRbK+xOo=\r\n\r\n"

/-- `sc_webrtc_server_handle_websocket` (webrtc_server.c, lines 291–319).
The C function receives only the server and the socket — not the request
buffer, so nothing it sends can depend on the client's key.  `send_ok` is the
environment's answer to `net_send_all` (`sent > 0`). -/
def sc_webrtc_server_handle_websocket (server : WsServer) (client_socket : Nat)
    (send_ok : Bool) : Bool × WsServer × List WsEvent :=
  if ¬ send_ok then (false, server, [])
  else
    let r := sc_webrtc_server_add_client server client_socket
    if r.1 < 0 then (false, r.2, [WsEvent.sent101 client_socket websocket_response])
    else
      (true, r.2,
        WsEvent.sent101 client_socket websocket_response ::
          (if r.2.has_on_client_connected then [WsEvent.connectedCb r.1.toNat] else []))

/-- `starts_with_chars needle hay` : does `hay` begin with `needle`? -/
def starts_with_chars : List Char → List Char → Bool
  | [], _ => true
  | _ :: _, [] => false
  | a :: as, b :: bs => a == b && starts_with_chars as bs

/-- Naive `strstr` scan over character lists. -/
def strstr_chars : List Char → List Char → Bool
  | [], needle => needle.isEmpty
  | c :: rest, needle => starts_with_chars needle (c :: rest) || strstr_chars rest needle

/-- `strstr(haystack, needle) != NULL` on strings. -/
def sc_strstr (hay needle : String) : Bool :=
  strstr_chars hay.toList needle.toList

/-- `sc_webrtc_server_handle_http` (webrtc_server.c, lines 266–288):
`recv_data = none` models `net_recv` returning `<= 0`; a buffer containing
`"Upgrade: websocket"` is delegated to `sc_webrtc_server_handle_websocket`;
otherwise the static page is served (`send_ok` = `net_send_all`'s `sent > 0`).
Note: no path of the C function closes `client_socket` itself. -/
def sc_webrtc_server_handle_http (server : WsServer) (client_socket : Nat)
    (recv_data : Option String) (send_ok : Bool) : Bool × WsServer × List WsEvent :=
  match recv_data with
  | none => (false, server, [])
  | some buffer =>
    if sc_strstr buffer "Upgrade: websocket" then
      sc_webrtc_server_handle_websocket server client_socket send_ok
    else
      if send_ok then (true, server, [WsEvent.sentHtml client_socket])
      else (false, server, [WsEvent.sentHtml client_socket])

/-- One iteration of the accept loop of `run_webrtc_server`
(webrtc_server.c, lines 399–405) after a successful `net_accept`: handle the
connection and close the socket only when handling reported failure. -/
def ws_handle_one_connection (server : WsServer) (client_socket : Nat)
    (recv_data : Option String) (send_ok : Bool) : WsServer × List WsEvent :=
  let r := sc_webrtc_server_handle_http server client_socket recv_data send_ok
  if r.1 then (r.2.1, r.2.2)
  else (r.2.1, r.2.2 ++ [WsEvent.closed client_socket])

/-- The server state right after `sc_webrtc_server_init`
(webrtc_server.c, lines 412–447): count 0, not stopped, a live listening
socket; the clients array exists (its 10 slots are uninitialized in C and
never read before being written — `default` stands for that memory). -/
def ws_initial_server : WsServer :=
  { server_socket := some 100, port := 8080, stopped := false, lockDepth := 0,
    clients := List.replicate 10 default, client_count := 0,
    has_on_client_connected := true, has_on_client_disconnected := true }

/-- Iterated `sc_webrtc_server_add_client`, collecting the returned ids. -/
def ws_add_many (server : WsServer) (socks : List Nat) : List Int × WsServer :=
  socks.foldl
    (fun acc s =>
      let r := sc_webrtc_server_add_client acc.2 s
      (acc.1 ++ [r.1], r.2))
    ([], server)

/-- A registry already at capacity: ten connected clients. -/
def ws_full_server : WsServer :=
  { server_socket := some 100, port := 8080, stopped := false, lockDepth := 0,
    clients := (List.range 10).map
      (fun i => { id := Int.ofNat i, socket := 200 + i, connected := true,
                  peerConnection := none, dataChannel := none }),
    client_count := 10,
    has_on_client_connected := true, has_on_client_disconnected := true }

/-- A connected client with a live peer connection, used by witnesses. -/
def ws_client_a : WsClient :=
  { id := 0, socket := 200, connected := true, peerConnection := some 7,
    dataChannel := none }

/-- An already-disconnected client, used by witnesses. -/
def ws_client_b : WsClient :=
  { id := 1, socket := 201, connected := false, peerConnection := none,
    dataChannel := none }

/-- A small server with two allocated clients, the first connected and the
second already disconnected. -/
def ws_two_client_server : WsServer :=
  { server_socket := some 100, port := 8080, stopped := false, lockDepth := 0,
    clients := ws_client_a :: ws_client_b :: List.replicate 8 default,
    client_count := 2,
    has_on_client_connected := true, has_on_client_disconnected := true }

/-- The 16-byte adversarial buffer of C2: an unmasked frame whose length field
is the 127 marker followed by eight `0xFF` bytes, declaring a payload of
`2 ^ 64 - 1` bytes, followed by 6 bytes of padding. -/
def c2_bad_input : List Nat :=
  [0x81, 0x7F, 255, 255, 255, 255, 255, 255, 255, 255, 0, 0, 0, 0, 0, 0]

/-! ## Arithmetic and list helper lemmas -/

lemma getD_append_len {α : Type} (l l' : List α) (i : Nat) (d : α) :
    (l ++ l').getD (l.length + i) d = l'.getD i d := by
  induction l with
  | nil => simp
  | cons a t ih =>
    have h : (a :: t).length + i = (t.length + i) + 1 := by
      simp [List.length_cons]; omega
    rw [List.cons_append, h, List.getD_cons_succ, ih]

lemma map_range_getD {α : Type} (xs : List α) (d : α) :
    (List.range xs.length).map (fun i => xs.getD i d) = xs := by
  induction xs with
  | nil => simp
  | cons a t ih =>
    rw [List.length_cons, List.range_succ_eq_map, List.map_cons, List.map_map]
    refine congrArg (a :: ·) ?_
    have h : ((fun i => (a :: t).getD i d) ∘ Nat.succ) = fun i => t.getD i d := by
      funext i
      simp [Function.comp]
    rw [h, ih]

lemma getD_map_range {α : Type} (f : Nat → α) (n i : Nat) (d : α) (h : i < n) :
    ((List.range n).map f).getD i d = f i := by
  rw [List.getD_eq_getElem?_getD, List.getElem?_map, List.getElem?_range h]
  rfl

lemma foldl_congr_mem {α β : Type} (l : List α) (f g : β → α → β) (b : β)
    (h : ∀ (acc : β), ∀ x ∈ l, f acc x = g acc x) :
    l.foldl f b = l.foldl g b := by
  induction l generalizing b with
  | nil => rfl
  | cons a t ih =>
    rw [List.foldl_cons, List.foldl_cons, h b a (List.mem_cons_self a t)]
    exact ih _ (fun acc x hx => h acc x (List.mem_cons_of_mem a hx))

lemma testBit_mul_pow_add_low (a b k j : Nat) (hj : j < k) :
    Nat.testBit (a * 2 ^ k + b) j = Nat.testBit b j := by
  have hk : (2 : Nat) ^ k = 2 ^ (k - j) * 2 ^ j := by
    rw [← Nat.pow_add]; congr 1; omega
  have h2 : (2 : Nat) ^ (k - j) = 2 ^ (k - j - 1) * 2 := by
    rw [← Nat.pow_succ]; congr 1; omega
  have hstep : a * 2 ^ k + b = b + a * 2 ^ (k - j - 1) * 2 * 2 ^ j := by
    rw [hk, h2]; ring
  rw [Nat.testBit_to_div_mod, Nat.testBit_to_div_mod, hstep,
    Nat.add_mul_div_right _ _ (Nat.two_pow_pos j)]
  have hmod : (b / 2 ^ j + a * 2 ^ (k - j - 1) * 2) % 2 = b / 2 ^ j % 2 :=
    Nat.add_mul_mod_self_right _ _ _
  rw [hmod]

lemma testBit_mul_pow_add_high (a b k j : Nat) (hb : b < 2 ^ k) (hj : k ≤ j) :
    Nat.testBit (a * 2 ^ k + b) j = Nat.testBit a (j - k) := by
  rw [Nat.testBit_to_div_mod, Nat.testBit_to_div_mod]
  have hk : (2 : Nat) ^ j = 2 ^ k * 2 ^ (j - k) := by
    rw [← Nat.pow_add]; congr 1; omega
  have hdiv : (a * 2 ^ k + b) / 2 ^ j = a / 2 ^ (j - k) := by
    rw [hk, ← Nat.div_div_eq_div_mul]
    congr 1
    rw [Nat.add_comm, Nat.add_mul_div_right _ _ (Nat.two_pow_pos k),
      Nat.div_eq_of_lt hb, Nat.zero_add]
  rw [hdiv]

lemma shiftLeft_lor_add (a b k : Nat) (hb : b < 2 ^ k) :
    a <<< k ||| b = a * 2 ^ k + b := by
  apply Nat.eq_of_testBit_eq
  intro j
  rw [Nat.testBit_or, Nat.testBit_shiftLeft]
  by_cases hj : k ≤ j
  · rw [testBit_mul_pow_add_high a b k j hb hj]
    have hbf : Nat.testBit b j = false :=
      Nat.testBit_lt_two_pow (Nat.lt_of_lt_of_le hb (Nat.pow_le_pow_right (by norm_num) hj))
    simp [hj, hbf]
  · have hjk : j < k := by omega
    rw [testBit_mul_pow_add_low a b k j hjk]
    simp [hj]

lemma decode16 (n : Nat) (h : n < 2 ^ 16) :
    (n >>> 8 % 256) <<< 8 ||| n % 256 = n := by
  have h1 : n >>> 8 % 256 = n / 256 := by
    rw [Nat.shiftRight_eq_div_pow, show (2 : Nat) ^ 8 = 256 from rfl]
    exact Nat.mod_eq_of_lt (by omega)
  have h2 : n % 256 < 2 ^ 8 := by
    rw [show (2 : Nat) ^ 8 = 256 from rfl]; omega
  rw [h1, shiftLeft_lor_add _ _ 8 h2, show (2 : Nat) ^ 8 = 256 from rfl]
  omega

lemma be_decode_encode (k : Nat) : ∀ n : Nat, n < 2 ^ (8 * k) →
    (List.range k).foldl (fun acc i => acc <<< 8 ||| n >>> (8 * (k - 1 - i)) % 256) 0 = n := by
  induction k with
  | zero =>
    intro n hn
    interval_cases n
    rfl
  | succ k ih =>
    intro n hn
    rw [List.range_succ, List.foldl_append]
    have hcong :
        (List.range k).foldl (fun acc i => acc <<< 8 ||| n >>> (8 * (k + 1 - 1 - i)) % 256) 0
          = (List.range k).foldl
              (fun acc i => acc <<< 8 ||| (n >>> 8) >>> (8 * (k - 1 - i)) % 256) 0 := by
      apply foldl_congr_mem
      intro acc i hi
      have hik : i < k := List.mem_range.mp hi
      have hsh : 8 * (k + 1 - 1 - i) = 8 + 8 * (k - 1 - i) := by omega
      rw [hsh, Nat.shiftRight_add]
    have hlt : n >>> 8 < 2 ^ (8 * k) := by
      rw [Nat.shiftRight_eq_div_pow, show (2 : Nat) ^ 8 = 256 from rfl]
      have h256 : (2 : Nat) ^ (8 * (k + 1)) = 256 * 2 ^ (8 * k) := by
        rw [show 8 * (k + 1) = 8 * k + 8 from by omega, Nat.pow_add,
          show (2 : Nat) ^ 8 = 256 from rfl, Nat.mul_comm]
      rw [h256] at hn
      exact Nat.div_lt_of_lt_mul hn
    rw [hcong, ih (n >>> 8) hlt]
    have hk0 : 8 * (k + 1 - 1 - k) = 0 := by omega
    have h2 : n % 256 < 2 ^ 8 := by
      rw [show (2 : Nat) ^ 8 = 256 from rfl]; omega
    simp only [List.foldl_cons, List.foldl_nil]
    rw [hk0, Nat.shiftRight_zero, shiftLeft_lor_add _ _ 8 h2,
      Nat.shiftRight_eq_div_pow, show (2 : Nat) ^ 8 = 256 from rfl]
    omega

lemma getD_cons_cons {α : Type} (a b : α) (l : List α) (i : Nat) (d : α) :
    (a :: b :: l).getD (2 + i) d = l.getD i d := by
  rw [show 2 + i = (i + 1) + 1 from by omega, List.getD_cons_succ, List.getD_cons_succ]

lemma getD_append_left {α : Type} (l l' : List α) (i : Nat) (d : α) (h : i < l.length) :
    (l ++ l').getD i d = l.getD i d := by
  rw [List.getD_eq_getElem?_getD, List.getD_eq_getElem?_getD, List.getElem?_append_left h]

/-- Generic reduction of `parse_websocket_frame` on an unmasked buffer whose
length-field decoding, mask bit, length check and payload slice are given. -/
lemma parse_unmasked_of (data payload : List Nat) (pl hl : Nat)
    (h2 : ¬ data.length < 2)
    (hlf : ws_len_fields data = some (pl, hl))
    (hmask : (data.getD 1 0).testBit 7 = false)
    (hlen : ¬ data.length < (hl + pl) % 2 ^ 64)
    (hrec : (List.range pl).map (fun i => data.getD (hl + i) 0) = payload) :
    parse_websocket_frame data = some payload := by
  simp only [parse_websocket_frame, if_neg h2, hlf, hmask, Bool.false_eq_true, if_false,
    if_neg hlen]
  exact congrArg some hrec

lemma roundtrip_tier1 (payload : List Nat) (h : payload.length ≤ 125) :
    parse_websocket_frame (0x81 :: payload.length % 128 :: payload) = some payload := by
  have hmod : payload.length % 128 = payload.length := Nat.mod_eq_of_lt (by omega)
  rw [hmod]
  apply parse_unmasked_of _ _ payload.length 2
  · simp [List.length_cons]
  · simp only [ws_len_fields]
    rw [show ((0x81 : Nat) :: payload.length :: payload).getD 1 0 = payload.length from rfl,
      Nat.mod_eq_of_lt (show payload.length < 128 by omega),
      if_neg (show ¬ payload.length = 126 by omega),
      if_neg (show ¬ payload.length = 127 by omega)]
  · exact Nat.testBit_lt_two_pow
      (show payload.length < 2 ^ 7 by rw [show (2 : Nat) ^ 7 = 128 from rfl]; omega)
  · rw [show ((0x81 : Nat) :: payload.length :: payload).length = 2 + payload.length from by
      simp [List.length_cons]; omega]
    exact Nat.not_lt.mpr (Nat.mod_le _ _)
  · have hpt : ∀ i ∈ List.range payload.length,
        ((0x81 : Nat) :: payload.length :: payload).getD (2 + i) 0 = payload.getD i 0 :=
      fun i _ => getD_cons_cons _ _ _ i 0
    rw [List.map_congr_left hpt, map_range_getD]

lemma roundtrip_tier2 (payload : List Nat) (h1 : 125 < payload.length)
    (h2 : payload.length ≤ 65535) :
    parse_websocket_frame
      (0x81 :: 126 :: payload.length >>> 8 % 256 :: payload.length % 256 :: payload)
      = some payload := by
  have h16 : payload.length < 2 ^ 16 := by
    rw [show (2 : Nat) ^ 16 = 65536 from rfl]; omega
  apply parse_unmasked_of _ _ payload.length 4
  · simp [List.length_cons]
  · have hlf0 : ws_len_fields
        (0x81 :: 126 :: payload.length >>> 8 % 256 :: payload.length % 256 :: payload)
        = some ((payload.length >>> 8 % 256) <<< 8 ||| payload.length % 256, 4) := rfl
    rw [hlf0, decode16 _ h16]
  · show Nat.testBit 126 7 = false
    decide
  · rw [show ((0x81 : Nat) :: 126 :: payload.length >>> 8 % 256 :: payload.length % 256
        :: payload).length = 4 + payload.length from by simp [List.length_cons]; omega]
    exact Nat.not_lt.mpr (Nat.mod_le _ _)
  · have hpt : ∀ i ∈ List.range payload.length,
        ((0x81 : Nat) :: 126 :: payload.length >>> 8 % 256 :: payload.length % 256
          :: payload).getD (4 + i) 0 = payload.getD i 0 := by
      intro i _
      rw [show 4 + i = 2 + (2 + i) from by omega, getD_cons_cons, getD_cons_cons]
    rw [List.map_congr_left hpt, map_range_getD]

lemma roundtrip_tier3 (payload : List Nat) (h1 : 65535 < payload.length)
    (h64 : payload.length < 2 ^ 64) :
    parse_websocket_frame
      (0x81 :: 127 :: ((List.range 8).map (fun i => payload.length >>> (8 * (7 - i)) % 256)
        ++ payload)) = some payload := by
  have hblen : ((List.range 8).map
      (fun i => payload.length >>> (8 * (7 - i)) % 256)).length = 8 := by
    simp
  have hdlen : ((0x81 : Nat) :: 127 ::
      ((List.range 8).map (fun i => payload.length >>> (8 * (7 - i)) % 256) ++ payload)).length
      = 10 + payload.length := by
    simp [List.length_cons, List.length_append]
    omega
  apply parse_unmasked_of _ _ payload.length 10
  · rw [hdlen]; omega
  · simp only [ws_len_fields]
    rw [show ((0x81 : Nat) :: 127 ::
        ((List.range 8).map (fun i => payload.length >>> (8 * (7 - i)) % 256)
          ++ payload)).getD 1 0 = 127 from rfl]
    rw [show (127 : Nat) % 128 = 127 from rfl]
    rw [if_neg (show ¬ (127 : Nat) = 126 from by decide), if_pos rfl,
      if_neg (show ¬ ((0x81 : Nat) :: 127 ::
        ((List.range 8).map (fun i => payload.length >>> (8 * (7 - i)) % 256)
          ++ payload)).length < 10 from by rw [hdlen]; omega)]
    have hbytes : ∀ (acc : Nat), ∀ i ∈ List.range 8,
        acc <<< 8 ||| ((0x81 : Nat) :: 127 ::
            ((List.range 8).map (fun j => payload.length >>> (8 * (7 - j)) % 256)
              ++ payload)).getD (2 + i) 0
          = acc <<< 8 ||| payload.length >>> (8 * (8 - 1 - i)) % 256 := by
      intro acc i hi
      have hik : i < 8 := List.mem_range.mp hi
      congr 1
      rw [getD_cons_cons, getD_append_left _ _ _ _ (by rw [hblen]; omega),
        getD_map_range _ _ _ _ hik]
    rw [foldl_congr_mem _ _ _ _ hbytes,
      be_decode_encode 8 payload.length (by rw [show (2 : Nat) ^ (8 * 8) = 2 ^ 64 from rfl]; exact h64)]
  · show Nat.testBit 127 7 = false
    decide
  · rw [hdlen]
    exact Nat.not_lt.mpr (Nat.mod_le _ _)
  · have hpt : ∀ i ∈ List.range payload.length,
        ((0x81 : Nat) :: 127 ::
          ((List.range 8).map (fun j => payload.length >>> (8 * (7 - j)) % 256)
            ++ payload)).getD (10 + i) 0 = payload.getD i 0 := by
      intro i _
      rw [show 10 + i = 2 + (8 + i) from by omega, getD_cons_cons,
        show 8 + i = ((List.range 8).map
          (fun j => payload.length >>> (8 * (7 - j)) % 256)).length + i from by rw [hblen],
        getD_append_len]
    rw [List.map_congr_left hpt, map_range_getD]

/-! ## Claim theorems: frame codec -/

/-- C3: for every payload whose length fits in `size_t` — in particular in all
three length-encoding tiers (≤125, 126–65535, >65535, so lengths 0, 1, 125,
126, 65535, 65536, …) — parsing the unmasked frame built by
`create_websocket_frame` succeeds and recovers exactly the original payload
bytes and length. -/
theorem parse_create_roundtrip (payload : List Nat) (h : payload.length < 2 ^ 64) :
    parse_websocket_frame (create_websocket_frame payload) = some payload := by
  simp only [create_websocket_frame]
  by_cases h3 : payload.length > 65535
  · rw [if_pos h3]
    exact roundtrip_tier3 payload h3 h
  · rw [if_neg h3]
    by_cases h2 : payload.length > 125
    · rw [if_pos h2]
      exact roundtrip_tier2 payload h2 (by omega)
    · rw [if_neg h2]
      exact roundtrip_tier1 payload (by omega)

/-- Witness for C3 at the concrete payload `[72, 105]`. -/
theorem parse_create_roundtrip_witness :
    [72, 105].length < 2 ^ 64 ∧
    parse_websocket_frame (create_websocket_frame [72, 105]) = some [72, 105] :=
  ⟨by decide, parse_create_roundtrip [72, 105] (by decide)⟩

/-- C2 (code bug): the `len < header_len + payload_length` size check of
`parse_websocket_frame` is `size_t`/`uint64_t` arithmetic and wraps modulo
`2 ^ 64`.  On the 16-byte buffer `c2_bad_input`, which declares a
`2 ^ 64 - 1`-byte payload (so the buffer is far shorter than header + declared
length and the claimed behaviour is the insufficient-data result), the
function instead proceeds and produces a `2 ^ 64 - 1`-byte payload slice — in
the C, `malloc(payload_length + 1)` wraps to `malloc(0)` and `memcpy` then
reads about `2 ^ 64` bytes out of bounds. -/
theorem parse_length_check_wraps :
    c2_bad_input.length < 10 + (2 ^ 64 - 1) ∧
    ∃ p, parse_websocket_frame c2_bad_input = some p ∧ p.length = 2 ^ 64 - 1 := by
  constructor
  · norm_num [c2_bad_input]
  · refine ⟨(List.range (2 ^ 64 - 1)).map (fun i => c2_bad_input.getD (10 + i) 0), ?_, ?_⟩
    · rfl
    · simp

/-- C8: `create_websocket_frame` emits first byte `0x81` — the FIN bit ORed
with text opcode `0x1` — never sets the mask bit of the second byte, encodes
the payload length exactly by the spec's tiered scheme (1-byte length, or
marker 126 + 2-byte big-endian, or marker 127 + 8-byte big-endian), appends the
payload verbatim, and the output size is exactly header length plus payload
length. -/
theorem create_frame_format (payload : List Nat) (h : payload.length < 2 ^ 64) :
    create_websocket_frame payload = 0x81 :: (ws_spec_len_header payload.length ++ payload)
    ∧ (create_websocket_frame payload).length
        = ws_spec_header_len payload.length + payload.length
    ∧ (create_websocket_frame payload).getD 0 0 = 0x80 ||| 0x01
    ∧ ((create_websocket_frame payload).getD 1 0).testBit 7 = false := by
  have hmain : create_websocket_frame payload
      = 0x81 :: (ws_spec_len_header payload.length ++ payload) := by
    simp only [create_websocket_frame, ws_spec_len_header]
    by_cases h3 : payload.length > 65535
    · rw [if_pos h3, if_neg (show ¬ payload.length ≤ 125 by omega),
        if_neg (show ¬ payload.length ≤ 65535 by omega), List.cons_append]
      congr 2
      congr 1
      apply List.map_congr_left
      intro i _
      rw [Nat.shiftRight_eq_div_pow, show (256 : Nat) = 2 ^ 8 from rfl, ← Nat.pow_mul]
    · by_cases h2 : payload.length > 125
      · rw [if_neg h3, if_pos h2, if_neg (show ¬ payload.length ≤ 125 by omega),
          if_pos (show payload.length ≤ 65535 by omega)]
        rw [show ([126, payload.length / 256, payload.length % 256] ++ payload)
            = 126 :: payload.length / 256 :: payload.length % 256 :: payload from rfl]
        rw [Nat.shiftRight_eq_div_pow, show (2 : Nat) ^ 8 = 256 from rfl,
          Nat.mod_eq_of_lt (show payload.length / 256 < 256 by omega)]
      · rw [if_neg h3, if_neg h2, if_pos (show payload.length ≤ 125 by omega),
          Nat.mod_eq_of_lt (show payload.length < 128 by omega)]
        rfl
  have hhl : (ws_spec_len_header payload.length).length + 1
      = ws_spec_header_len payload.length := by
    simp only [ws_spec_len_header, ws_spec_header_len]
    by_cases h125 : payload.length ≤ 125
    · rw [if_pos h125, if_pos h125]
      rfl
    · by_cases h65 : payload.length ≤ 65535
      · rw [if_neg h125, if_neg h125, if_pos h65, if_pos h65]
        rfl
      · rw [if_neg h125, if_neg h125, if_neg h65, if_neg h65]
        simp
  have hb : (ws_spec_len_header payload.length).getD 0 0 < 2 ^ 7 := by
    simp only [ws_spec_len_header]
    by_cases h125 : payload.length ≤ 125
    · rw [if_pos h125, List.getD_cons_zero, show (2 : Nat) ^ 7 = 128 from rfl]
      omega
    · by_cases h65 : payload.length ≤ 65535
      · rw [if_neg h125, if_pos h65, List.getD_cons_zero]
        decide
      · rw [if_neg h125, if_neg h65, List.getD_cons_zero]
        decide
  have hne : 0 < (ws_spec_len_header payload.length).length := by
    simp only [ws_spec_len_header]
    by_cases h125 : payload.length ≤ 125
    · rw [if_pos h125]; simp
    · by_cases h65 : payload.length ≤ 65535
      · rw [if_neg h125, if_pos h65]; simp
      · rw [if_neg h125, if_neg h65]; simp
  refine ⟨hmain, ?_, ?_, ?_⟩
  · rw [hmain, List.length_cons, List.length_append]
    omega
  · rw [hmain]
    rfl
  · rw [hmain,
      show ((0x81 : Nat) :: (ws_spec_len_header payload.length ++ payload)).getD 1 0
        = (ws_spec_len_header payload.length ++ payload).getD 0 0 from rfl,
      getD_append_left _ _ _ _ hne]
    exact Nat.testBit_lt_two_pow hb

/-- Witness for C8 at the concrete payload `[65, 66]`. -/
theorem create_frame_format_witness :
    [65, 66].length < 2 ^ 64 ∧
    (create_websocket_frame [65, 66]
        = 0x81 :: (ws_spec_len_header [65, 66].length ++ [65, 66])
      ∧ (create_websocket_frame [65, 66]).length
          = ws_spec_header_len [65, 66].length + [65, 66].length
      ∧ (create_websocket_frame [65, 66]).getD 0 0 = 0x80 ||| 0x01
      ∧ ((create_websocket_frame [65, 66]).getD 1 0).testBit 7 = false) :=
  ⟨by decide, create_frame_format [65, 66] (by decide)⟩

/-- C9: whenever `parse_websocket_frame` succeeds on a buffer whose mask bit is
set (with declared payload length `pl` and pre-mask header length `bl`, so the
mask key occupies bytes `bl..bl+3` and the raw payload starts at `bl + 4`),
every returned payload byte `i` is the raw payload byte `i` XORed with
`mask[i % 4]`. -/
theorem parse_masked_unmasks (data : List Nat) (pl bl : Nat) (payload : List Nat)
    (hf : ws_len_fields data = some (pl, bl))
    (hm : (data.getD 1 0).testBit 7 = true)
    (hp : parse_websocket_frame data = some payload) :
    payload.length = pl ∧
    ∀ i, i < pl → payload.getD i 0
      = data.getD (bl + 4 + i) 0 ^^^ data.getD (bl + i % 4) 0 := by
  by_cases h2 : data.length < 2
  · simp only [parse_websocket_frame, if_pos h2] at hp
    exact Option.noConfusion hp
  · simp only [parse_websocket_frame, if_neg h2, hf, hm, if_true] at hp
    by_cases hlen : data.length < (bl + 4 + pl) % 2 ^ 64
    · rw [if_pos hlen] at hp
      simp at hp
    · rw [if_neg hlen] at hp
      have hps := Option.some.inj hp
      constructor
      · rw [← hps]
        simp
      · intro i hi
        rw [← hps, getD_map_range _ _ _ _ hi]
        have hsub : bl + 4 - 4 = bl := by omega
        rw [hsub]

/-- Witness for C9: the masked frame with mask `[1, 2, 3, 4]` and raw payload
`"AB"` (`[0x41, 0x42]`) parses to `"AB"` XORed with the repeating mask. -/
theorem parse_masked_unmasks_witness :
    ws_len_fields [0x81, 0x82, 1, 2, 3, 4, 0x41, 0x42] = some (2, 2) ∧
    (([0x81, 0x82, 1, 2, 3, 4, 0x41, 0x42] : List Nat).getD 1 0).testBit 7 = true ∧
    parse_websocket_frame [0x81, 0x82, 1, 2, 3, 4, 0x41, 0x42] = some [0x40, 0x40] ∧
    (([0x40, 0x40] : List Nat).length = 2 ∧
      ∀ i, i < 2 → ([0x40, 0x40] : List Nat).getD i 0
        = ([0x81, 0x82, 1, 2, 3, 4, 0x41, 0x42] : List Nat).getD (2 + 4 + i) 0
            ^^^ ([0x81, 0x82, 1, 2, 3, 4, 0x41, 0x42] : List Nat).getD (2 + i % 4) 0) :=
  ⟨by decide, by decide, by decide,
    parse_masked_unmasks [0x81, 0x82, 1, 2, 3, 4, 0x41, 0x42] 2 2 [0x40, 0x40]
      (by decide) (by decide) (by decide)⟩

/-! ## Claim theorems: registry and server lifecycle -/

lemma getD_set_self {α : Type} (l : List α) (i : Nat) (a d : α) (h : i < l.length) :
    (l.set i a).getD i d = a := by
  rw [List.getD_eq_getElem?_getD, List.getElem?_set_self h]
  rfl

lemma getD_set_ne {α : Type} (l : List α) (i j : Nat) (a d : α) (h : i ≠ j) :
    (l.set i a).getD j d = l.getD j d := by
  rw [List.getD_eq_getElem?_getD, List.getD_eq_getElem?_getD, List.getElem?_set_ne h]

lemma lock_unlock_cancel (s : WsServer) : sc_mutex_unlock (sc_mutex_lock s) = s := rfl

/-- Lock-free characterization of `sc_webrtc_server_add_client` (the lock is
acquired and released around the body, cancelling out). -/
lemma add_client_eq (server : WsServer) (sock : Nat) :
    sc_webrtc_server_add_client server sock =
      if server.client_count ≥ SC_WEBRTC_MAX_CLIENTS then (-1, server)
      else
        (Int.ofNat server.client_count,
          { server with
            clients := server.clients.set server.client_count
              { id := Int.ofNat server.client_count, socket := sock, connected := true,
                peerConnection := none, dataChannel := none },
            client_count := server.client_count + 1 }) := rfl

/-- Lock-free characterization of `sc_webrtc_server_remove_client`. -/
lemma remove_client_eq (server : WsServer) (id : Int) :
    sc_webrtc_server_remove_client server id =
      if 0 ≤ id ∧ id < (server.client_count : Int) then
        if (server.clients.getD id.toNat default).connected then
          ({ server with
              clients := server.clients.set id.toNat
                { server.clients.getD id.toNat default with
                    connected := false, peerConnection := none } },
            WsEvent.closed (server.clients.getD id.toNat default).socket ::
              ((match (server.clients.getD id.toNat default).peerConnection with
                | some pc => [WsEvent.deletedPeer pc]
                | none => []) ++
               (if server.has_on_client_disconnected then
                  [WsEvent.disconnectedCb id.toNat] else [])))
        else (server, [])
      else (server, []) := rfl

lemma ws_add_many_go (socks : List Nat) : ∀ acc : List Int × WsServer,
    socks.foldl
        (fun acc s =>
          let r := sc_webrtc_server_add_client acc.2 s
          (acc.1 ++ [r.1], r.2)) acc
      = (acc.1 ++ (ws_add_many acc.2 socks).1, (ws_add_many acc.2 socks).2) := by
  induction socks with
  | nil =>
    intro acc
    simp [ws_add_many]
  | cons s rest ih =>
    intro acc
    rw [List.foldl_cons, ih]
    have hR : ws_add_many acc.2 (s :: rest)
        = ((sc_webrtc_server_add_client acc.2 s).1
            :: (ws_add_many (sc_webrtc_server_add_client acc.2 s).2 rest).1,
           (ws_add_many (sc_webrtc_server_add_client acc.2 s).2 rest).2) := by
      unfold ws_add_many
      rw [List.foldl_cons, ih]
      simp
      exact ⟨rfl, rfl⟩
    rw [hR]
    simp

lemma ws_add_many_nil (server : WsServer) : ws_add_many server [] = ([], server) := rfl

lemma ws_add_many_cons (server : WsServer) (s : Nat) (rest : List Nat) :
    ws_add_many server (s :: rest)
      = ((sc_webrtc_server_add_client server s).1
          :: (ws_add_many (sc_webrtc_server_add_client server s).2 rest).1,
         (ws_add_many (sc_webrtc_server_add_client server s).2 rest).2) := by
  unfold ws_add_many
  rw [List.foldl_cons, ws_add_many_go]
  simp
  exact ⟨rfl, rfl⟩

lemma ws_add_many_append (server : WsServer) (l1 l2 : List Nat) :
    ws_add_many server (l1 ++ l2)
      = ((ws_add_many server l1).1
          ++ (ws_add_many (ws_add_many server l1).2 l2).1,
         (ws_add_many (ws_add_many server l1).2 l2).2) := by
  unfold ws_add_many
  rw [List.foldl_append, ws_add_many_go]
  rfl

lemma ws_add_many_ids (socks : List Nat) : ∀ server : WsServer,
    server.client_count + socks.length ≤ SC_WEBRTC_MAX_CLIENTS →
    (ws_add_many server socks).1
        = (List.range socks.length).map (fun i => Int.ofNat (server.client_count + i))
    ∧ (ws_add_many server socks).2.client_count
        = server.client_count + socks.length := by
  induction socks with
  | nil =>
    intro server _
    constructor
    · simp [ws_add_many]
    · simp [ws_add_many]
  | cons s rest ih =>
    intro server h
    have hnotfull : ¬ server.client_count ≥ SC_WEBRTC_MAX_CLIENTS := by
      simp only [SC_WEBRTC_MAX_CLIENTS] at *
      simp only [List.length_cons] at h
      omega
    have hadd := add_client_eq server s
    rw [if_neg hnotfull] at hadd
    have hcnt2 : (sc_webrtc_server_add_client server s).2.client_count
        = server.client_count + 1 := by
      rw [hadd]
    obtain ⟨ih1, ih2⟩ := ih (sc_webrtc_server_add_client server s).2
      (by rw [hcnt2]; simp only [List.length_cons] at h; omega)
    constructor
    · rw [ws_add_many_cons, ih1]
      simp only [hcnt2, List.length_cons, List.range_succ_eq_map, List.map_cons,
        List.map_map]
      congr 1
      · rw [hadd]
        simp
      · apply List.map_congr_left
        intro i _
        simp only [Function.comp]
        congr 1
        omega
    · rw [ws_add_many_cons]
      simp only [ih2, hcnt2, List.length_cons]
      omega

/-- C6: starting from the freshly initialized (empty) registry, ten
(`SC_WEBRTC_MAX_CLIENTS`) `add_client` calls succeed with the strictly
increasing ids 0, 1, …, 9 — each id equal to the count at the time of the
call — and an eleventh call fails with the "full" result `-1`, leaving the
registry state exactly as it was after the tenth call. -/
theorem add_client_ids_then_full (socks : List Nat) (s10 : Nat)
    (h : socks.length = SC_WEBRTC_MAX_CLIENTS) :
    (ws_add_many ws_initial_server (socks ++ [s10])).1
        = (List.range SC_WEBRTC_MAX_CLIENTS).map Int.ofNat ++ [-1]
    ∧ (ws_add_many ws_initial_server (socks ++ [s10])).2
        = (ws_add_many ws_initial_server socks).2 := by
  have hinit : ws_initial_server.client_count = 0 := rfl
  obtain ⟨hids, hcnt⟩ := ws_add_many_ids socks ws_initial_server
    (by rw [hinit, h]; omega)
  have hcnt10 : (ws_add_many ws_initial_server socks).2.client_count
      = SC_WEBRTC_MAX_CLIENTS := by
    rw [hcnt, hinit, h]
    omega
  have hlast : sc_webrtc_server_add_client (ws_add_many ws_initial_server socks).2 s10
      = (-1, (ws_add_many ws_initial_server socks).2) := by
    rw [add_client_eq, if_pos (by rw [hcnt10])]
  have hsingle : ws_add_many (ws_add_many ws_initial_server socks).2 [s10]
      = ([-1], (ws_add_many ws_initial_server socks).2) := by
    rw [ws_add_many_cons, hlast]
    simp [ws_add_many_nil]
  rw [ws_add_many_append, hsingle, hids]
  constructor
  · simp only [hinit, h]
    simp
  · rfl

/-- Witness for C6: ten concrete sockets then an eleventh. -/
theorem add_client_ids_then_full_witness :
    [201, 202, 203, 204, 205, 206, 207, 208, 209, 210].length = SC_WEBRTC_MAX_CLIENTS
    ∧ ((ws_add_many ws_initial_server
          ([201, 202, 203, 204, 205, 206, 207, 208, 209, 210] ++ [211])).1
          = (List.range SC_WEBRTC_MAX_CLIENTS).map Int.ofNat ++ [-1]
       ∧ (ws_add_many ws_initial_server
            ([201, 202, 203, 204, 205, 206, 207, 208, 209, 210] ++ [211])).2
          = (ws_add_many ws_initial_server
              [201, 202, 203, 204, 205, 206, 207, 208, 209, 210]).2) :=
  ⟨by decide,
    add_client_ids_then_full [201, 202, 203, 204, 205, 206, 207, 208, 209, 210] 211
      (by decide)⟩

/-- C10: when the registry is already at capacity, `handle_websocket` has
nevertheless already sent the complete `101 Switching Protocols` response
before running the capacity check: on the "full" failure it returns `false`,
registers no client and invokes no connected callback, yet its event trace is
exactly the successful handshake transmission. -/
theorem handle_websocket_101_before_capacity_check
    (server : WsServer) (sock : Nat)
    (hfull : server.client_count ≥ SC_WEBRTC_MAX_CLIENTS) :
    sc_webrtc_server_handle_websocket server sock true
      = (false, server, [WsEvent.sent101 sock websocket_response]) := by
  have hadd : sc_webrtc_server_add_client server sock = (-1, server) := by
    rw [add_client_eq, if_pos hfull]
  simp only [sc_webrtc_server_handle_websocket, hadd]
  norm_num

/-- Witness for C10 at the concrete full registry `ws_full_server`. -/
theorem handle_websocket_101_witness :
    ws_full_server.client_count ≥ SC_WEBRTC_MAX_CLIENTS ∧
    sc_webrtc_server_handle_websocket ws_full_server 5 true
      = (false, ws_full_server, [WsEvent.sent101 5 websocket_response]) :=
  ⟨by decide, handle_websocket_101_before_capacity_check ws_full_server 5 (by decide)⟩

lemma remove_client_second (s : WsServer) (id : Int)
    (h : (s.clients.getD id.toNat default).connected = false) :
    sc_webrtc_server_remove_client s id = (s, []) := by
  rw [remove_client_eq]
  by_cases hin : 0 ≤ id ∧ id < (s.client_count : Int)
  · rw [if_pos hin, if_neg (by rw [h]; simp)]
  · rw [if_neg hin]

/-- C7: `remove_client` on an allocated id marks that client not-alive; it is
idempotent — a second call on the same id returns the state unchanged with no
events — any call on an out-of-range id leaves all state unchanged, and a
single call invokes the disconnect callback at most once. -/
theorem remove_client_idempotent (server : WsServer) (id : Int)
    (hlen : server.clients.length = SC_WEBRTC_MAX_CLIENTS)
    (hcnt : server.client_count ≤ SC_WEBRTC_MAX_CLIENTS) :
    (0 ≤ id → id < (server.client_count : Int) →
      ((sc_webrtc_server_remove_client server id).1.clients.getD
          id.toNat default).connected = false)
    ∧ sc_webrtc_server_remove_client (sc_webrtc_server_remove_client server id).1 id
        = ((sc_webrtc_server_remove_client server id).1, [])
    ∧ (¬ (0 ≤ id ∧ id < (server.client_count : Int)) →
        sc_webrtc_server_remove_client server id = (server, []))
    ∧ List.count (WsEvent.disconnectedCb id.toNat)
        (sc_webrtc_server_remove_client server id).2 ≤ 1 := by
  simp only [SC_WEBRTC_MAX_CLIENTS] at hlen hcnt
  by_cases hin : 0 ≤ id ∧ id < (server.client_count : Int)
  · by_cases hc : (server.clients.getD id.toNat default).connected = true
    · obtain ⟨h0, hlt⟩ := hin
      have hidx : id.toNat < server.clients.length := by
        rw [hlen]
        omega
      have hrm := remove_client_eq server id
      rw [if_pos ⟨h0, hlt⟩, if_pos hc] at hrm
      have h1 : ((sc_webrtc_server_remove_client server id).1.clients.getD
          id.toNat default).connected = false := by
        rw [hrm]
        simp only []
        rw [getD_set_self _ _ _ _ hidx]
      refine ⟨fun _ _ => h1, remove_client_second _ id h1,
        fun hcontra => absurd ⟨h0, hlt⟩ hcontra, ?_⟩
      rw [hrm]
      rcases hpc : (server.clients.getD id.toNat default).peerConnection with _ | pc <;>
        by_cases hcb : server.has_on_client_disconnected = true <;>
          simp [hpc, hcb, List.count_cons, List.count_append, List.count_nil]
    · have hcf : (server.clients.getD id.toNat default).connected = false := by
        revert hc
        cases (server.clients.getD id.toNat default).connected <;> simp
      have hrm : sc_webrtc_server_remove_client server id = (server, []) :=
        remove_client_second server id hcf
      refine ⟨fun _ _ => by rw [hrm]; exact hcf, ?_, fun hcontra => absurd hin hcontra, ?_⟩
      · rw [hrm]
        exact remove_client_second server id hcf
      · rw [hrm]
        simp
  · have hrm : sc_webrtc_server_remove_client server id = (server, []) := by
      rw [remove_client_eq, if_neg hin]
    refine ⟨fun h0 hlt => absurd ⟨h0, hlt⟩ hin, ?_, fun _ => hrm, ?_⟩
    · rw [hrm]
      exact hrm
    · rw [hrm]
      simp

/-- Witness for C7 at the concrete two-client server and id 0. -/
theorem remove_client_idempotent_witness :
    (ws_two_client_server.clients.length = SC_WEBRTC_MAX_CLIENTS
      ∧ ws_two_client_server.client_count ≤ SC_WEBRTC_MAX_CLIENTS)
    ∧ ((0 ≤ (0 : Int) → (0 : Int) < (ws_two_client_server.client_count : Int) →
        ((sc_webrtc_server_remove_client ws_two_client_server 0).1.clients.getD
            (0 : Int).toNat default).connected = false)
      ∧ sc_webrtc_server_remove_client
            (sc_webrtc_server_remove_client ws_two_client_server 0).1 0
          = ((sc_webrtc_server_remove_client ws_two_client_server 0).1, [])
      ∧ (¬ (0 ≤ (0 : Int) ∧ (0 : Int) < (ws_two_client_server.client_count : Int)) →
          sc_webrtc_server_remove_client ws_two_client_server 0
            = (ws_two_client_server, []))
      ∧ List.count (WsEvent.disconnectedCb (0 : Int).toNat)
          (sc_webrtc_server_remove_client ws_two_client_server 0).2 ≤ 1) :=
  ⟨⟨by decide, by decide⟩,
    remove_client_idempotent ws_two_client_server 0 (by decide) (by decide)⟩

lemma ws_stop_loop_inv (s : WsServer) (evs0 : List WsEvent)
    (hlen : s.clients.length = SC_WEBRTC_MAX_CLIENTS)
    (hcnt : s.client_count ≤ SC_WEBRTC_MAX_CLIENTS) :
    ∀ k, k ≤ s.client_count →
      ((List.range k).foldl ws_stop_step (s, evs0)).1.client_count = s.client_count
      ∧ ((List.range k).foldl ws_stop_step (s, evs0)).1.clients.length = s.clients.length
      ∧ ((List.range k).foldl ws_stop_step (s, evs0)).1.stopped = s.stopped
      ∧ ((List.range k).foldl ws_stop_step (s, evs0)).1.server_socket = s.server_socket
      ∧ ((List.range k).foldl ws_stop_step (s, evs0)).1.lockDepth = s.lockDepth
      ∧ ((List.range k).foldl ws_stop_step (s, evs0)).1.has_on_client_disconnected
          = s.has_on_client_disconnected
      ∧ (∀ j, k ≤ j →
          ((List.range k).foldl ws_stop_step (s, evs0)).1.clients.getD j default
            = s.clients.getD j default)
      ∧ (∀ j, j < k →
          (((List.range k).foldl ws_stop_step (s, evs0)).1.clients.getD
              j default).connected = false)
      ∧ (∀ j, j < k → (s.clients.getD j default).connected = true →
          WsEvent.closed (s.clients.getD j default).socket
              ∈ ((List.range k).foldl ws_stop_step (s, evs0)).2
          ∧ (s.has_on_client_disconnected = true →
              WsEvent.disconnectedCb j ∈ ((List.range k).foldl ws_stop_step (s, evs0)).2)) := by
  intro k
  induction k with
  | zero =>
    intro _
    exact ⟨rfl, rfl, rfl, rfl, rfl, rfl, fun j _ => rfl,
      fun j hj => absurd hj (by omega), fun j hj _ => absurd hj (by omega)⟩
  | succ k ih =>
    intro hk1
    have hk : k ≤ s.client_count := by omega
    obtain ⟨ih1, ih2, ih3, ih4, ih5, ih6, ih7, ih8, ih9⟩ := ih hk
    rw [List.range_succ, List.foldl_append, List.foldl_cons, List.foldl_nil]
    have hcrk : ((List.range k).foldl ws_stop_step (s, evs0)).1.clients.getD k default
        = s.clients.getD k default := ih7 k (le_refl k)
    by_cases hck : (((List.range k).foldl ws_stop_step (s, evs0)).1.clients.getD
        k default).connected = true
    · -- this iteration disconnects client k
      have hin : (0 : Int) ≤ (k : Int)
          ∧ (k : Int) < (((List.range k).foldl ws_stop_step (s, evs0)).1.client_count : Int) := by
        rw [ih1]
        constructor
        · omega
        · omega
      have hidx : k < ((List.range k).foldl ws_stop_step (s, evs0)).1.clients.length := by
        rw [ih2, hlen]
        have hcnt10 : s.client_count ≤ 10 := by
          simpa [SC_WEBRTC_MAX_CLIENTS] using hcnt
        simp only [SC_WEBRTC_MAX_CLIENTS]
        omega
      have hrm := remove_client_eq ((List.range k).foldl ws_stop_step (s, evs0)).1 (k : Int)
      simp only [Int.toNat_natCast] at hrm
      rw [if_pos hin, if_pos hck] at hrm
      have hstep : ws_stop_step ((List.range k).foldl ws_stop_step (s, evs0)) k
          = ((sc_webrtc_server_remove_client
                ((List.range k).foldl ws_stop_step (s, evs0)).1 (k : Int)).1,
             ((List.range k).foldl ws_stop_step (s, evs0)).2
               ++ (sc_webrtc_server_remove_client
                ((List.range k).foldl ws_stop_step (s, evs0)).1 (k : Int)).2) := by
        simp only [ws_stop_step, hck, if_true]
      rw [hstep, hrm]
      simp only []
      refine ⟨ih1, by rw [List.length_set]; exact ih2, ih3, ih4, ih5, ih6, ?_, ?_, ?_⟩
      · intro j hj
        rw [getD_set_ne _ _ _ _ _ (by omega), ih7 j (by omega)]
      · intro j hj
        by_cases hjk : j = k
        · subst hjk
          rw [getD_set_self _ _ _ _ hidx]
        · rw [getD_set_ne _ _ _ _ _ (by omega)]
          exact ih8 j (by omega)
      · intro j hj hconn
        by_cases hjk : j = k
        · subst hjk
          constructor
          · apply List.mem_append_right
            rw [hcrk]
            exact List.mem_cons_self _ _
          · intro hcb
            apply List.mem_append_right
            apply List.mem_cons_of_mem
            apply List.mem_append_right
            rw [ih6, hcb]
            simp
        · have hjlt : j < k := by omega
          obtain ⟨hm1, hm2⟩ := ih9 j hjlt hconn
          exact ⟨List.mem_append_left _ hm1, fun hcb => List.mem_append_left _ (hm2 hcb)⟩
    · -- client k is already not connected: the loop body does nothing
      have hstep : ws_stop_step ((List.range k).foldl ws_stop_step (s, evs0)) k
          = (List.range k).foldl ws_stop_step (s, evs0) := by
        simp only [ws_stop_step, hck]
        simp
      rw [hstep]
      refine ⟨ih1, ih2, ih3, ih4, ih5, ih6, fun j hj => ih7 j (by omega), ?_, ?_⟩
      · intro j hj
        by_cases hjk : j = k
        · subst hjk
          revert hck
          cases h : (((List.range j).foldl ws_stop_step (s, evs0)).1.clients.getD
              j default).connected <;> simp
        · exact ih8 j (by omega)
      · intro j hj hconn
        by_cases hjk : j = k
        · subst hjk
          rw [hcrk] at hck
          exact absurd hconn hck
        · exact ih9 j (by omega) hconn

/-- C4: after `sc_webrtc_server_stop` returns, the stop flag is set, every
client whose alive flag was true has been disconnected — alive flag cleared,
its transport closed, the disconnect callback invoked for it when registered —
and the listening socket has been closed, with the socket-close event last
(after all disconnections) and the registry lock fully released on return
(`sc_mutex` is spec-modelled, see `sc_mutex_lock`, so the re-acquisition inside
the loop completes instead of deadlocking). -/
theorem stop_disconnects_all_then_closes (server : WsServer)
    (hlen : server.clients.length = SC_WEBRTC_MAX_CLIENTS)
    (hcnt : server.client_count ≤ SC_WEBRTC_MAX_CLIENTS) :
    (sc_webrtc_server_stop server).1.stopped = true
    ∧ (∀ i, i < server.client_count →
        ((sc_webrtc_server_stop server).1.clients.getD i default).connected = false)
    ∧ (∀ i, i < server.client_count →
        (server.clients.getD i default).connected = true →
        WsEvent.closed (server.clients.getD i default).socket
            ∈ (sc_webrtc_server_stop server).2
        ∧ (server.has_on_client_disconnected = true →
            WsEvent.disconnectedCb i ∈ (sc_webrtc_server_stop server).2))
    ∧ (sc_webrtc_server_stop server).1.server_socket = none
    ∧ (∀ ss, server.server_socket = some ss →
        (sc_webrtc_server_stop server).2.getLast? = some (WsEvent.closed ss))
    ∧ (sc_webrtc_server_stop server).1.lockDepth = server.lockDepth := by
  set s1 := sc_mutex_lock { server with stopped := true } with hs1
  set r := (List.range s1.client_count).foldl ws_stop_step (s1, []) with hr
  obtain ⟨i1, i2, i3, i4, i5, i6, i7, i8, i9⟩ :=
    ws_stop_loop_inv s1 [] hlen hcnt s1.client_count (le_refl _)
  rw [← hr] at i1 i2 i3 i4 i5 i6 i7 i8 i9
  have hstop : sc_webrtc_server_stop server
      = (match r.1.server_socket with
         | some sock => ({ sc_mutex_unlock r.1 with server_socket := none },
                         r.2 ++ [WsEvent.closed sock])
         | none => (sc_mutex_unlock r.1, r.2)) := rfl
  have hr1ss : r.1.server_socket = server.server_socket := i4
  rcases hss : server.server_socket with _ | ss
  · have hstop2 : sc_webrtc_server_stop server = (sc_mutex_unlock r.1, r.2) := by
      rw [hstop, hr1ss, hss]
    refine ⟨?_, ?_, ?_, ?_, ?_, ?_⟩
    · rw [hstop2]
      exact i3
    · intro i hi
      rw [hstop2]
      exact i8 i hi
    · intro i hi hconn
      rw [hstop2]
      exact i9 i hi hconn
    · rw [hstop2]
      show r.1.server_socket = none
      rw [hr1ss, hss]
    · intro ss' hss'
      cases hss'
    · rw [hstop2]
      show r.1.lockDepth - 1 = server.lockDepth
      rw [i5]
      show server.lockDepth + 1 - 1 = server.lockDepth
      omega
  · have hstop2 : sc_webrtc_server_stop server
        = ({ sc_mutex_unlock r.1 with server_socket := none },
           r.2 ++ [WsEvent.closed ss]) := by
      rw [hstop, hr1ss, hss]
    refine ⟨?_, ?_, ?_, ?_, ?_, ?_⟩
    · rw [hstop2]
      exact i3
    · intro i hi
      rw [hstop2]
      exact i8 i hi
    · intro i hi hconn
      rw [hstop2]
      exact ⟨List.mem_append_left _ (i9 i hi hconn).1,
        fun hcb => List.mem_append_left _ ((i9 i hi hconn).2 hcb)⟩
    · rw [hstop2]
    · intro ss' hss'
      cases hss'
      rw [hstop2]
      exact List.getLast?_concat _
    · rw [hstop2]
      show r.1.lockDepth - 1 = server.lockDepth
      rw [i5]
      show server.lockDepth + 1 - 1 = server.lockDepth
      omega

/-- Witness for C4 at the concrete two-client server. -/
theorem stop_disconnects_all_then_closes_witness :
    (ws_two_client_server.clients.length = SC_WEBRTC_MAX_CLIENTS
      ∧ ws_two_client_server.client_count ≤ SC_WEBRTC_MAX_CLIENTS)
    ∧ ((sc_webrtc_server_stop ws_two_client_server).1.stopped = true
      ∧ (∀ i, i < ws_two_client_server.client_count →
          ((sc_webrtc_server_stop ws_two_client_server).1.clients.getD
              i default).connected = false)
      ∧ (∀ i, i < ws_two_client_server.client_count →
          (ws_two_client_server.clients.getD i default).connected = true →
          WsEvent.closed (ws_two_client_server.clients.getD i default).socket
              ∈ (sc_webrtc_server_stop ws_two_client_server).2
          ∧ (ws_two_client_server.has_on_client_disconnected = true →
              WsEvent.disconnectedCb i ∈ (sc_webrtc_server_stop ws_two_client_server).2))
      ∧ (sc_webrtc_server_stop ws_two_client_server).1.server_socket = none
      ∧ (∀ ss, ws_two_client_server.server_socket = some ss →
          (sc_webrtc_server_stop ws_two_client_server).2.getLast?
            = some (WsEvent.closed ss))
      ∧ (sc_webrtc_server_stop ws_two_client_server).1.lockDepth
          = ws_two_client_server.lockDepth) :=
  ⟨⟨by decide, by decide⟩,
    stop_disconnects_all_then_closes ws_two_client_server (by decide) (by decide)⟩

/-- C1 (code bug): `sc_webrtc_server_handle_websocket` never even receives the
request buffer, so the 101 response cannot depend on the client's
`Sec-WebSocket-Key`: two upgrade requests carrying different keys receive the
identical response, and that response carries the hardcoded literal
`Sec-WebSocket-Accept: s3pPLMBiTxaQ9kYGzzhZRbK+xOo=` (the RFC 6455 example
value, correct only for the key `dGhlIHNhbXBsZSBub25jZQ==`) rather than a
token computed per-request from the key. -/
theorem handshake_accept_token_is_fixed :
    (sc_webrtc_server_handle_http ws_initial_server 3
        (some "GET /ws HTTP/1.1\r\nUpgrade: websocket\r\nSec-WebSocket-Key: x3JJHMbDL1EzLkh9GBhXDw==\r\n\r\n")
        true).2.2
      = (sc_webrtc_server_handle_http ws_initial_server 3
        (some "GET /ws HTTP/1.1\r\nUpgrade: websocket\r\nSec-WebSocket-Key: dGhlIHNhbXBsZSBub25jZQ==\r\n\r\n")
        true).2.2
    ∧ (sc_webrtc_server_handle_http ws_initial_server 3
        (some "GET /ws HTTP/1.1\r\nUpgrade: websocket\r\nSec-WebSocket-Key: x3JJHMbDL1EzLkh9GBhXDw==\r\n\r\n")
        true).2.2.head? = some (WsEvent.sent101 3 websocket_response)
    ∧ sc_strstr websocket_response "Sec-WebSocket-Accept: s3pPLMBiTxaQ9kYGzzhZRbK+xOo="
        = true := by
  refine ⟨?_, ?_, ?_⟩
  · decide
  · decide
  · decide

/-- C5 (code bug): on a plain HTTP request (no upgrade header) whose receive
and send both succeed, `handle_http` reports success and neither it nor the
accept loop closes the client socket: the trace of one accept-loop iteration is
just the page transmission — no close event — and no client is registered to
take ownership, so the socket is leaked, contradicting the claimed
close-after-serving behaviour of the non-upgrade success path. -/
theorem nonupgrade_success_leaks_socket :
    (ws_handle_one_connection ws_initial_server 7
        (some "GET / HTTP/1.1\r\nHost: localhost\r\n\r\n") true).2
      = [WsEvent.sentHtml 7]
    ∧ (∀ e ∈ (ws_handle_one_connection ws_initial_server 7
        (some "GET / HTTP/1.1\r\nHost: localhost\r\n\r\n") true).2,
        e ≠ WsEvent.closed 7)
    ∧ (ws_handle_one_connection ws_initial_server 7
        (some "GET / HTTP/1.1\r\nHost: localhost\r\n\r\n") true).1
      = ws_initial_server := by
  refine ⟨?_, ?_, ?_⟩
  · decide
  · decide
  · decide
